import Mathlib

/-!
Verification of the FLock-subnet miner (`miner.py`) against its
natural-language specification.  The Python source is shallowly embedded:

* the filesystem is a map from path strings to file contents (a file is a
  list of opaque records, one per JSONL line);
* wall-clock instants read by `datetime.now()` are either civil tuples
  (`Civil`, for the `strftime("%Y%m%d%H")` period key) or microseconds
  since the epoch (for `wait_until`'s arithmetic);
* external collaborators (HuggingFace snapshot download, `upload_data`,
  `store_model_metadata`, `random.shuffle`) are parameters: a download
  outcome, a commit id, an announce-failure list, a shuffle function;
* Python exceptions are `Except` errors; a `try/except` that swallows the
  exception is a `match` that returns normally in both branches.
-/

namespace FlockMiner

/-- A file's contents: the list of JSONL records (opaque, type `α`). -/
abbrev FileData (α : Type) := List α

/-- Filesystem model: absolute path → file contents, `none` when absent. -/
def Fs (α : Type) : Type := String → Option (FileData α)

/-- `os.path.join` for the flat two-component paths the miner uses. -/
def pathJoin (d f : String) : String := (d ++ "/") ++ f

/-- `List.isPrefixOf`, re-implemented structurally. -/
def leadsWith : List Char → List Char → Bool
  | [], _ => true
  | _ :: _, [] => false
  | a :: as, b :: bs => a = b && leadsWith as bs

/-- A path lies strictly inside directory `d` (models `shutil.rmtree` scope). -/
def underDir (d p : String) : Bool := leadsWith (d ++ "/").data p.data

/-! ## Period key — `datetime.now().strftime("%Y%m%d%H")` (miner.py:62,136) -/

/-- A civil wall-clock reading, as returned by `datetime.now()`. -/
structure Civil where
  year : Nat
  month : Nat
  day : Nat
  hour : Nat
  minute : Nat
  second : Nat
deriving DecidableEq, Repr

/-- Calendar validity of a `datetime.now()` reading (4-digit year era). -/
def validCivil (t : Civil) : Prop :=
  1000 ≤ t.year ∧ t.year ≤ 9999 ∧ 1 ≤ t.month ∧ t.month ≤ 12 ∧
    1 ≤ t.day ∧ t.day ≤ 31 ∧ t.hour ≤ 23 ∧ t.minute ≤ 59 ∧ t.second ≤ 59

instance (t : Civil) : Decidable (validCivil t) := by
  unfold validCivil; infer_instance

/-- The decimal digit character for `n < 10`. -/
def decChar (n : Nat) : Char := Char.ofNat (48 + n)

/-- Two-digit zero-padded rendering (`%m`, `%d`, `%H`). -/
def pad2 (n : Nat) : List Char := [decChar (n / 10), decChar (n % 10)]

/-- Four-digit zero-padded rendering (`%Y` for years 1000–9999). -/
def pad4 (n : Nat) : List Char := pad2 (n / 100) ++ pad2 (n % 100)

/-- The characters of `strftime("%Y%m%d%H")`. -/
def periodKeyL (t : Civil) : List Char :=
  pad4 t.year ++ (pad2 t.month ++ (pad2 t.day ++ pad2 t.hour))

/-- `datetime.now().strftime("%Y%m%d%H")` (miner.py:62 and miner.py:136). -/
def periodKey (t : Civil) : String := { data := periodKeyL t }

/-- Two clock readings fall in the same calendar hour. -/
def sameHour (s t : Civil) : Prop :=
  s.year = t.year ∧ s.month = t.month ∧ s.day = t.day ∧ s.hour = t.hour

instance (s t : Civil) : Decidable (sameHour s t) := by
  unfold sameHour; infer_instance

/-- Chronological order of civil readings: `s` is at or before `t`
(lexicographic on year, month, day, hour, minute, second). -/
def civilLe (s t : Civil) : Prop :=
  s.year < t.year ∨ (s.year = t.year ∧
    (s.month < t.month ∨ (s.month = t.month ∧
      (s.day < t.day ∨ (s.day = t.day ∧
        (s.hour < t.hour ∨ (s.hour = t.hour ∧
          (s.minute < t.minute ∨ (s.minute = t.minute ∧
            s.second ≤ t.second)))))))))

instance (s t : Civil) : Decidable (civilLe s t) := by
  unfold civilLe; infer_instance

/-! ## `wait_until` (miner.py:72–89) -/

/-- Python `str.strip` whitespace test (ASCII whitespace). -/
def isSpaceChar (c : Char) : Bool :=
  c = ' ' || c = '\t' || c = '\n' || c = '\r' || c = '\x0b' || c = '\x0c'

/-- Python `str.strip()`. -/
def stripChars (cs : List Char) : List Char :=
  ((cs.dropWhile isSpaceChar).reverse.dropWhile isSpaceChar).reverse

/-- Python `str.split(":")`. -/
def splitCols : List Char → List (List Char)
  | [] => [[]]
  | c :: rest =>
    match splitCols rest with
    | [] => if c = ':' then [[], []] else [[c]]
    | g :: gs => if c = ':' then [] :: g :: gs else (c :: g) :: gs

/-- Value of a nonempty all-digit character list. -/
def digitsVal? (cs : List Char) : Option Nat :=
  match cs with
  | [] => none
  | _ =>
    if cs.all (fun c => c.isDigit) then
      some (cs.foldl (fun a c => a * 10 + (c.toNat - 48)) 0)
    else none

/-- Python `int(str)`: optional surrounding whitespace, optional sign,
then a nonempty digit run; anything else raises `ValueError` (`none`). -/
def pyInt? (cs : List Char) : Option Int :=
  match stripChars cs with
  | '+' :: rest => (digitsVal? rest).map (fun n => (n : Int))
  | '-' :: rest => (digitsVal? rest).map (fun n => -(n : Int))
  | rest => (digitsVal? rest).map (fun n => (n : Int))

/-- `datetime.time(h, m, s)`: validates hour ∈ [0,23], minute/second ∈ [0,59]
(raising `ValueError` otherwise) and yields the time of day in microseconds. -/
def dt_time? (h m s : Int) : Option Nat :=
  if 0 ≤ h ∧ h ≤ 23 ∧ 0 ≤ m ∧ m ≤ 59 ∧ 0 ≤ s ∧ s ≤ 59 then
    some (((h.toNat * 60 + m.toNat) * 60 + s.toNat) * 1000000)
  else none

/-- Parsing and validation portion of `wait_until` (miner.py:75–81):
`run_at.strip().split(":")`, `int(...)` per field, and the
`datetime.time` constructor; `none` is a raised `ValueError`. -/
def parseTarget? (run_at : String) : Option Nat :=
  match splitCols (stripChars run_at.data) with
  | [p1, p2] =>
    match pyInt? p1, pyInt? p2 with
    | some h, some m => dt_time? h m 0
    | _, _ => none
  | [p1, p2, p3] =>
    match pyInt? p1, pyInt? p2, pyInt? p3 with
    | some h, some m, some s => dt_time? h m s
    | _, _, _ => none
  | _ => none

/-- Microseconds per day. -/
def USDAY : Nat := 86400000000

/-- miner.py:82–86: `datetime.combine(now.date(), target)`, rolled to the
next day when not strictly in the future.  `now` and the result are in
microseconds since the epoch. -/
def computeRun (now target : Nat) : Nat :=
  if now / USDAY * USDAY + target ≤ now then (now / USDAY * USDAY + target) + USDAY
  else now / USDAY * USDAY + target

/-- `wait_until` (miner.py:72–89): parse/validate, compute the run instant,
then sleep until it.  Success carries the computed run instant (the sleep
amount is `result - now`); an error is raised strictly before any sleep. -/
def wait_until (run_at : String) (now : Nat) : Except String Nat :=
  match parseTarget? run_at with
  | some t => Except.ok (computeRun now t)
  | none => Except.error "ValueError"

/-- A schedule field parses as an integer in `[lo, hi]`. -/
def fieldInRange (lo hi : Int) (p : List Char) : Bool :=
  match pyInt? p with
  | some v => lo ≤ v && v ≤ hi
  | none => false

/-- The claim's notion of a well-formed schedule string: it splits into
exactly 2 or 3 colon-separated integer fields with hour in [0,23] and
minute/second in [0,59]. -/
def wellFormedSchedule (s : String) : Bool :=
  match splitCols (stripChars s.data) with
  | [p1, p2] => fieldInRange 0 23 p1 && fieldInRange 0 59 p2
  | [p1, p2, p3] => fieldInRange 0 23 p1 && fieldInRange 0 59 p2 && fieldInRange 0 59 p3
  | _ => false

/-- The claim's notion of a malformed schedule string. -/
def malformedSchedule (s : String) : Bool := !wellFormedSchedule s

/-! ## `download_dataset` / `load_dataset` (miner.py:22–54) -/

/-- Outcome of the external `api.snapshot_download` collaborator: either the
snapshot's files (paths relative to the destination directory) or an error. -/
inductive Fetch (α : Type) where
  | ok (files : List (String × FileData α))
  | err (msg : String)

/-- `shutil.rmtree(d, ignore_errors=True)`: every path under `d` vanishes. -/
def rmtree {α : Type} (d : String) (fs : Fs α) : Fs α :=
  fun p => if underDir d p then none else fs p

/-- Materialize the snapshot's files inside `local_dir`, keeping others. -/
def writeSnapshot {α : Type} (local_dir : String)
    (files : List (String × FileData α)) (fs : Fs α) : Fs α :=
  fun p =>
    match files.find? (fun nf => pathJoin local_dir nf.1 == p) with
    | some nf => some nf.2
    | none => fs p

/-- `api.snapshot_download` (miner.py:36–38): writes the snapshot or raises. -/
def snapshot_download {α : Type} (fetch : Fetch α) (local_dir : String)
    (fs : Fs α) : Except String (Fs α) :=
  match fetch with
  | Fetch.ok files => Except.ok (writeSnapshot local_dir files fs)
  | Fetch.err e => Except.error e

/-- `download_dataset` (miner.py:22–40): optional force-clean of the whole
directory, `os.makedirs`, then `api.snapshot_download` inside a
`try/except` that logs any exception and falls through. -/
def download_dataset {α : Type} (fetch : Fetch α) (local_dir : String)
    (force : Bool) (fs : Fs α) : Except String (Fs α) :=
  let fs1 := if force then rmtree local_dir fs else fs
  match snapshot_download fetch local_dir fs1 with
  | Except.ok fs2 => Except.ok fs2
  | Except.error _ => Except.ok fs1

/-- `load_dataset` (miner.py:44–54): forced refresh (`force=True`,
miner.py:52) followed by `os.rename(dir/data.jsonl, dir/eval_file)`;
the rename raises `FileNotFoundError` when the source file is absent. -/
def load_dataset {α : Type} (fetch : Fetch α)
    (eval_data_dir eval_file : String) (fs : Fs α) : Except String (Fs α) :=
  match download_dataset fetch eval_data_dir true fs with
  | Except.error e => Except.error e
  | Except.ok fs1 =>
    match fs1 (pathJoin eval_data_dir "data.jsonl") with
    | none => Except.error "FileNotFoundError"
    | some c =>
      Except.ok (fun p =>
        if p = pathJoin eval_data_dir eval_file then some c
        else if p = pathJoin eval_data_dir "data.jsonl" then none
        else fs1 p)

/-! ## Observable events of one run -/

/-- Externally observable actions of a run of `main`. -/
inductive Ev where
  | fetch
  | writeSub (path : String)
  | publish (repo : String) (path : String)
  | announce (payload : String)
  | sleepSec (n : Nat)
  | commitOk
deriving DecidableEq, Repr

/-! ## The commit retry loop (miner.py:161–176) -/

/-- The `while True: try … except …` loop announcing the serialized record:
`errs` lists the exception messages of the announce attempts that fail
before the first success (the behaviour "fail `N` times, then succeed").
Each failure is logged and followed by `time.sleep(120)`; the loop breaks
right after the first successful announce and never re-raises. -/
def commitRetrier (payload : String) (errs : List String) : List Ev :=
  match errs with
  | [] => [Ev.announce payload, Ev.commitOk]
  | _ :: rest => Ev.announce payload :: Ev.sleepSec 120 :: commitRetrier payload rest

/-! ## `make_submission` (miner.py:56–70) -/

/-- miner.py:59–60: truncate to `submission_size` when it is given. -/
def applySize {α : Type} (sz : Option Nat) (l : List α) : List α :=
  match sz with
  | some k => l.take k
  | none => l

/-- miner.py:63: the submission filename, with the size suffix present
exactly when `submission_size` was passed. -/
def submissionFileName (key : String) (sz : Option Nat) : String :=
  match sz with
  | some n => ((("submission_" ++ key) ++ "_") ++ Nat.repr n) ++ ".jsonl"
  | none => ("submission_" ++ key) ++ ".jsonl"

/-- `make_submission` (miner.py:56–70): load the eval JSONL (raising when
the file is absent), shuffle in memory (`shuffle` is the permutation
`random.shuffle` happened to apply), truncate to `submission_size`, and
write the result to `submission_dir/submission_<key>[_<size>].jsonl`
where `<key>` is `datetime.now().strftime("%Y%m%d%H")` read at `t`.
Returns the new filesystem, the written path, and the written records. -/
def make_submission {α : Type} (shuffle : List α → List α) (fs : Fs α)
    (eval_data_dir eval_file submission_dir : String)
    (submission_size : Option Nat) (t : Civil) :
    Except String (Fs α × String × List α) :=
  match fs (pathJoin eval_data_dir eval_file) with
  | none => Except.error "FileNotFoundError"
  | some eval_data =>
    Except.ok
      (fun q =>
        if q = pathJoin submission_dir (submissionFileName (periodKey t) submission_size)
        then some (applySize submission_size (shuffle eval_data)) else fs q,
       pathJoin submission_dir (submissionFileName (periodKey t) submission_size),
       applySize submission_size (shuffle eval_data))

/-! ## `main` (miner.py:124–176) -/

/-- `ModelId(namespace, commit, competition_id)` (miner.py:154–156). -/
structure ModelId where
  nspace : String
  commit : String
  competition_id : String
deriving DecidableEq, Repr

/-- The CLI configuration fields `main` reads (miner.py:92–122). -/
structure Config where
  eval_data_dir : String
  eval_file : String
  submission_dir : String
  submission_size : Option Nat
  hf_repo_id : String

/-- The observable outcome of a successful run of `main`. -/
structure RunResult (α : Type) where
  fs : Fs α
  evalFile : String
  subPath : String
  written : List α
  trace : List Ev

/-- miner.py:137: the eval filename for a period key. -/
def evalFileName (key : String) : String := ("eval_data_" ++ key) ++ ".jsonl"

/-- miner.py:138–143: skip the dataset refresh when the current period's
eval file already exists, otherwise run `load_dataset` (the `Ev.fetch`
trace event marks that invocation). -/
def refreshGate {α : Type} (fetch : Fetch α) (eval_data_dir eval_file : String)
    (fs : Fs α) : Except String (Fs α × List Ev) :=
  if (fs (pathJoin eval_data_dir eval_file)).isSome then
    Except.ok (fs, [])
  else
    match load_dataset fetch eval_data_dir eval_file fs with
    | Except.ok fs2 => Except.ok (fs2, [Ev.fetch])
    | Except.error e => Except.error e

/-- One run of `main` (miner.py:124–176), from the period-key computation at
miner.py:136 to the end of the commit retry loop.  `t136` is the
`datetime.now()` reading at miner.py:136 and `t62` the separate reading
inside `make_submission` at miner.py:62.  `fetch`, `commitId`,
`competitionId`, `compress` (`ModelId.to_compressed_str`) and `errs`
(announce failures before the first success) parameterize the external
collaborators.  Note the call at miner.py:146 passes no `submission_size`,
so `make_submission` runs with its default `None` regardless of
`cfg.submission_size`. -/
def mainRun {α : Type} (shuffle : List α → List α) (fetch : Fetch α)
    (commitId competitionId : String) (compress : ModelId → String)
    (errs : List String) (t136 t62 : Civil) (cfg : Config) (fs : Fs α) :
    Except String (RunResult α) :=
  match refreshGate fetch cfg.eval_data_dir (evalFileName (periodKey t136)) fs with
  | Except.error e => Except.error e
  | Except.ok (fs1, tr1) =>
    match make_submission shuffle fs1 cfg.eval_data_dir (evalFileName (periodKey t136))
        cfg.submission_dir none t62 with
    | Except.error e => Except.error e
    | Except.ok (fs2, subPath, written) =>
      Except.ok ⟨fs2, evalFileName (periodKey t136), subPath, written,
        tr1 ++ (Ev.writeSub subPath :: Ev.publish cfg.hf_repo_id subPath ::
          commitRetrier (compress ⟨cfg.hf_repo_id, commitId, competitionId⟩) errs)⟩

/-! ## Helper lemmas -/

/-- Is an event an announce attempt? -/
def isAnnounceEv : Ev → Bool
  | Ev.announce _ => true
  | _ => false

theorem commitRetrier_shape (payload : String) (errs : List String) :
    commitRetrier payload errs =
      (List.replicate errs.length [Ev.announce payload, Ev.sleepSec 120]).flatten ++
        [Ev.announce payload, Ev.commitOk] := by
  induction errs with
  | nil => rfl
  | cons e rest ih =>
    simp only [commitRetrier, ih, List.length_cons, List.replicate_succ, List.flatten_cons,
      List.cons_append, List.append_assoc]
    rfl

theorem commitRetrier_announce_count (payload : String) (errs : List String) :
    (commitRetrier payload errs).countP isAnnounceEv = errs.length + 1 := by
  induction errs with
  | nil => rfl
  | cons e rest ih =>
    simp only [commitRetrier, List.countP_cons, ih, List.length_cons]
    rfl

theorem commitRetrier_payload (payload : String) (errs : List String) :
    ∀ q, Ev.announce q ∈ commitRetrier payload errs → q = payload := by
  induction errs with
  | nil =>
    intro q hq
    simp only [commitRetrier, List.mem_cons, List.mem_singleton] at hq
    rcases hq with h | h | h <;> first | (cases h; rfl) | cases h
  | cons e rest ih =>
    intro q hq
    simp only [commitRetrier, List.mem_cons] at hq
    rcases hq with h | h | h
    · cases h; rfl
    · cases h
    · exact ih q h

theorem dt_time?_bound {h m s : Int} {t : Nat} (he : dt_time? h m s = some t) :
    t < USDAY := by
  unfold dt_time? at he
  split at he
  · rename_i hc
    obtain ⟨h0, h1, h2, h3, h4, h5⟩ := hc
    injection he with he
    unfold USDAY
    omega
  · simp at he

theorem parseTarget?_bound {r : String} {t : Nat} (h : parseTarget? r = some t) :
    t < USDAY := by
  unfold parseTarget? at h
  split at h
  · split at h
    · exact dt_time?_bound h
    · simp at h
  · split at h
    · exact dt_time?_bound h
    · simp at h
  · simp at h

theorem computeRun_future {now t : Nat} (ht : t < USDAY) :
    now < computeRun now t := by
  unfold computeRun USDAY at *
  split <;> omega

theorem computeRun_rollover {now t : Nat}
    (hle : now / USDAY * USDAY + t ≤ now) :
    computeRun now t = (now / USDAY * USDAY + t) + USDAY := by
  unfold computeRun
  split
  · rfl
  · rename_i hc
    exact absurd hle hc

/-! ## C1 — the commit retry loop -/

/-- C1: for an announce behaviour that fails on each of the first `N`
attempts (`errs` lists those `N` failures, of any kind) and succeeds on
attempt `N + 1`, the retry loop of `main` (miner.py:161–176) makes exactly
`N + 1` announce attempts, every attempt carries the same serialized
payload, a fixed 120-second sleep separates consecutive attempts, the loop
commits and stops immediately after the first success, and — being a total
function into traces for every `errs`, with no cap on `errs.length` — it
absorbs every announce exception instead of propagating it. -/
theorem commitRetrier_retries_until_success (payload : String) (errs : List String) :
    commitRetrier payload errs =
      (List.replicate errs.length [Ev.announce payload, Ev.sleepSec 120]).flatten ++
        [Ev.announce payload, Ev.commitOk] ∧
    (commitRetrier payload errs).countP isAnnounceEv = errs.length + 1 ∧
    (∀ q, Ev.announce q ∈ commitRetrier payload errs → q = payload) ∧
    (commitRetrier payload errs).getLast? = some Ev.commitOk :=
  ⟨commitRetrier_shape payload errs,
   commitRetrier_announce_count payload errs,
   commitRetrier_payload payload errs,
   by
    rw [commitRetrier_shape payload errs]
    rw [List.getLast?_append]
    rfl⟩

/-! ## C3 — next-run computation of `wait_until` -/

/-- C3: for every schedule string that parses as a valid `HH:MM` or
`HH:MM:SS` time of day `t` (microseconds past midnight), and every current
instant `now`, `wait_until` computes a run instant strictly in the future;
and whenever the same-day target (midnight of `now`'s day plus `t`) is at
or before `now` — including exact equality — the computed instant is
exactly 24 hours after that same-day target. -/
theorem wait_until_next_run (run_at : String) (now t : Nat)
    (h : parseTarget? run_at = some t) :
    wait_until run_at now = Except.ok (computeRun now t) ∧
    now < computeRun now t ∧
    (now / USDAY * USDAY + t ≤ now →
      computeRun now t = (now / USDAY * USDAY + t) + USDAY) := by
  refine ⟨?_, computeRun_future (parseTarget?_bound h), fun hle => computeRun_rollover hle⟩
  unfold wait_until
  rw [h]

theorem wait_until_next_run_witness :
    parseTarget? "14:30" = some 52200000000 ∧
    (wait_until "14:30" 86500000000000 = Except.ok (computeRun 86500000000000 52200000000) ∧
      86500000000000 < computeRun 86500000000000 52200000000 ∧
      (86500000000000 / USDAY * USDAY + 52200000000 ≤ 86500000000000 →
        computeRun 86500000000000 52200000000 =
          (86500000000000 / USDAY * USDAY + 52200000000) + USDAY)) :=
  ⟨by decide, wait_until_next_run "14:30" 86500000000000 52200000000 (by decide)⟩

/-! ## C4 — malformed schedules fail before any sleep -/

theorem wellFormed_of_parse {s : String} {t : Nat} (h : parseTarget? s = some t) :
    wellFormedSchedule s = true := by
  unfold parseTarget? at h
  unfold wellFormedSchedule
  cases hsp : splitCols (stripChars s.data) with
  | nil => rw [hsp] at h; simp at h
  | cons p1 r1 =>
    cases r1 with
    | nil => rw [hsp] at h; simp at h
    | cons p2 r2 =>
      cases r2 with
      | nil =>
        rw [hsp] at h
        simp only at h ⊢
        cases h1 : pyInt? p1 with
        | none => rw [h1] at h; simp at h
        | some hh =>
          cases h2 : pyInt? p2 with
          | none => rw [h1, h2] at h; simp at h
          | some mm =>
            rw [h1, h2] at h
            simp only at h
            unfold dt_time? at h
            split at h
            · rename_i hc
              simp only [fieldInRange, h1, h2]
              rw [decide_eq_true hc.1, decide_eq_true hc.2.1,
                decide_eq_true hc.2.2.1, decide_eq_true hc.2.2.2.1]
              rfl
            · simp at h
      | cons p3 r3 =>
        cases r3 with
        | nil =>
          rw [hsp] at h
          simp only at h ⊢
          cases h1 : pyInt? p1 with
          | none => rw [h1] at h; simp at h
          | some hh =>
            cases h2 : pyInt? p2 with
            | none => rw [h1, h2] at h; simp at h
            | some mm =>
              cases h3 : pyInt? p3 with
              | none => rw [h1, h2, h3] at h; simp at h
              | some ss =>
                rw [h1, h2, h3] at h
                simp only at h
                unfold dt_time? at h
                split at h
                · rename_i hc
                  simp only [fieldInRange, h1, h2, h3]
                  rw [decide_eq_true hc.1, decide_eq_true hc.2.1,
                    decide_eq_true hc.2.2.1, decide_eq_true hc.2.2.2.1,
                    decide_eq_true hc.2.2.2.2.1, decide_eq_true hc.2.2.2.2.2]
                  rfl
                · simp at h
        | cons p4 r4 => rw [hsp] at h; simp at h

/-- C4: for every malformed schedule string — one that does not split into
exactly 2 or 3 colon-separated integer fields, or whose fields are out of
range (hour outside [0,23], minute/second outside [0,59]) — `wait_until`
(miner.py:72–89) raises a `ValueError` and never reaches its `time.sleep`:
the error is the function's result, and the sleep exists only on the
success path (the `Except.ok` payload is the slept-until instant). -/
theorem wait_until_malformed_raises (s : String) (now : Nat)
    (h : malformedSchedule s = true) :
    wait_until s now = Except.error "ValueError" := by
  unfold wait_until
  cases hp : parseTarget? s with
  | none => rfl
  | some t =>
    exfalso
    have hw := wellFormed_of_parse hp
    unfold malformedSchedule at h
    rw [hw] at h
    simp at h

theorem wait_until_malformed_raises_witness :
    malformedSchedule "25:00" = true ∧
    wait_until "25:00" 0 = Except.error "ValueError" :=
  ⟨by decide, wait_until_malformed_raises "25:00" 0 (by decide)⟩

/-! ## Period-key lemmas (digit rendering) -/

theorem decChar_lt_iff (a b : Nat) (ha : a < 10) (hb : b < 10) :
    (decChar a < decChar b ↔ a < b) := by
  have h : ∀ x y : Fin 10, (decChar x.val < decChar y.val ↔ x.val < y.val) := by decide
  exact h ⟨a, ha⟩ ⟨b, hb⟩

theorem decChar_inj (a b : Nat) (ha : a < 10) (hb : b < 10)
    (h : decChar a = decChar b) : a = b := by
  have hd : ∀ x y : Fin 10, decChar x.val = decChar y.val → x.val = y.val := by decide
  exact hd ⟨a, ha⟩ ⟨b, hb⟩ h

theorem lex_append_same (a : List Char) {c d : List Char}
    (h : List.Lex (· < ·) c d) : List.Lex (· < ·) (a ++ c) (a ++ d) := by
  induction a with
  | nil => exact h
  | cons x xs ih => exact List.Lex.cons ih

theorem lex_append_of_lex {a b : List Char} (h : List.Lex (· < ·) a b)
    (hlen : a.length = b.length) (c d : List Char) :
    List.Lex (· < ·) (a ++ c) (b ++ d) := by
  induction h generalizing c d with
  | nil => simp at hlen
  | cons _ ih => exact List.Lex.cons (ih (by simpa using hlen) c d)
  | rel hr => exact List.Lex.rel hr

theorem pad2_lex {a b : Nat} (h : a < b) (hb : b < 100) :
    List.Lex (· < ·) (pad2 a) (pad2 b) := by
  have ha : a < 100 := lt_trans h hb
  rcases Nat.lt_or_ge (a / 10) (b / 10) with h1 | h1
  · exact List.Lex.rel ((decChar_lt_iff _ _ (by omega) (by omega)).mpr h1)
  · have h2 : a / 10 = b / 10 := by omega
    simp only [pad2]
    rw [h2]
    exact List.Lex.cons (List.Lex.rel ((decChar_lt_iff _ _ (by omega) (by omega)).mpr (by omega)))

theorem pad2_inj {a b : Nat} (ha : a < 100) (hb : b < 100)
    (h : pad2 a = pad2 b) : a = b := by
  simp only [pad2, List.cons.injEq, and_true] at h
  have h1 := decChar_inj _ _ (by omega) (by omega) h.1
  have h2 := decChar_inj _ _ (by omega) (by omega) h.2
  omega

theorem pad4_lex {a b : Nat} (h : a < b) (hb : b < 10000) :
    List.Lex (· < ·) (pad4 a) (pad4 b) := by
  have ha : a < 10000 := lt_trans h hb
  rcases Nat.lt_or_ge (a / 100) (b / 100) with h1 | h1
  · exact lex_append_of_lex (pad2_lex h1 (by omega)) rfl _ _
  · have h2 : a / 100 = b / 100 := by omega
    simp only [pad4]
    rw [h2]
    exact lex_append_same _ (pad2_lex (by omega) (by omega))

theorem pad4_inj {a b : Nat} (ha : a < 10000) (hb : b < 10000)
    (h : pad4 a = pad4 b) : a = b := by
  simp only [pad4] at h
  obtain ⟨h1, h2⟩ := List.append_inj h rfl
  have e1 := pad2_inj (a := a / 100) (b := b / 100) (by omega) (by omega) h1
  have e2 := pad2_inj (a := a % 100) (b := b % 100) (by omega) (by omega) h2
  omega

/-- Strictly-earlier calendar hour, lexicographically. -/
def hourLt (s t : Civil) : Prop :=
  s.year < t.year ∨ (s.year = t.year ∧
    (s.month < t.month ∨ (s.month = t.month ∧
      (s.day < t.day ∨ (s.day = t.day ∧ s.hour < t.hour)))))

theorem civilLe_cases {s t : Civil} (h : civilLe s t) : sameHour s t ∨ hourLt s t := by
  unfold civilLe at h
  unfold sameHour hourLt
  rcases h with h | ⟨hy, h⟩
  · exact Or.inr (Or.inl h)
  rcases h with h | ⟨hm, h⟩
  · exact Or.inr (Or.inr ⟨hy, Or.inl h⟩)
  rcases h with h | ⟨hd, h⟩
  · exact Or.inr (Or.inr ⟨hy, Or.inr ⟨hm, Or.inl h⟩⟩)
  rcases h with h | ⟨hh, _⟩
  · exact Or.inr (Or.inr ⟨hy, Or.inr ⟨hm, Or.inr ⟨hd, h⟩⟩⟩)
  · exact Or.inl ⟨hy, hm, hd, hh⟩

theorem periodKey_congr {s t : Civil} (h : sameHour s t) :
    periodKey s = periodKey t := by
  obtain ⟨h1, h2, h3, h4⟩ := h
  unfold periodKey periodKeyL
  rw [h1, h2, h3, h4]

theorem periodKeyL_inj {s t : Civil} (hs : validCivil s) (ht : validCivil t)
    (h : periodKeyL s = periodKeyL t) : sameHour s t := by
  obtain ⟨hs1, hs2, hs3, hs4, hs5, hs6, hs7, _, _⟩ := hs
  obtain ⟨ht1, ht2, ht3, ht4, ht5, ht6, ht7, _, _⟩ := ht
  unfold periodKeyL at h
  obtain ⟨hy, h⟩ := List.append_inj h rfl
  obtain ⟨hm, h⟩ := List.append_inj h rfl
  obtain ⟨hd, hh⟩ := List.append_inj h rfl
  exact ⟨pad4_inj (by omega) (by omega) hy,
    pad2_inj (by omega) (by omega) hm,
    pad2_inj (by omega) (by omega) hd,
    pad2_inj (by omega) (by omega) hh⟩

theorem periodKey_ne {s t : Civil} (hs : validCivil s) (ht : validCivil t)
    (h : ¬ sameHour s t) : periodKey s ≠ periodKey t :=
  fun he => h (periodKeyL_inj hs ht (congrArg String.data he))

theorem periodKeyL_lex {s t : Civil} (hs : validCivil s) (ht : validCivil t)
    (h : hourLt s t) : List.Lex (· < ·) (periodKeyL s) (periodKeyL t) := by
  obtain ⟨hs1, hs2, hs3, hs4, hs5, hs6, hs7, _, _⟩ := hs
  obtain ⟨ht1, ht2, ht3, ht4, ht5, ht6, ht7, _, _⟩ := ht
  unfold periodKeyL
  rcases h with h | ⟨hy, h⟩
  · exact lex_append_of_lex (pad4_lex h (by omega)) rfl _ _
  rw [hy]
  rcases h with h | ⟨hm, h⟩
  · exact lex_append_same _ (lex_append_of_lex (pad2_lex h (by omega)) rfl _ _)
  rw [hm]
  rcases h with h | ⟨hd, h⟩
  · exact lex_append_same _ (lex_append_same _
      (lex_append_of_lex (pad2_lex h (by omega)) rfl _ _))
  rw [hd]
  exact lex_append_same _ (lex_append_same _ (lex_append_same _ (pad2_lex h (by omega))))

theorem periodKey_lt {s t : Civil} (hs : validCivil s) (ht : validCivil t)
    (h : hourLt s t) : periodKey s < periodKey t := by
  rw [String.lt_iff_toList_lt]
  exact periodKeyL_lex hs ht h

theorem periodKey_mono {s t : Civil} (hs : validCivil s) (ht : validCivil t)
    (h : civilLe s t) : periodKey s ≤ periodKey t := by
  rcases civilLe_cases h with hsame | hlt
  · exact le_of_eq (periodKey_congr hsame)
  · exact le_of_lt (periodKey_lt hs ht hlt)

/-! ## C7 — the period key -/

/-- C7: the period key `strftime("%Y%m%d%H")` (miner.py:62, miner.py:136)
is a pure function of the clock reading; any two readings in the same
calendar hour yield identical strings; readings in different calendar
hours yield different strings; and as the wall clock advances
(chronological order `civilLe` on civil readings) the key string is
monotonically non-decreasing in the string order. -/
theorem periodKey_period_properties (s t : Civil)
    (hs : validCivil s) (ht : validCivil t) :
    (sameHour s t → periodKey s = periodKey t) ∧
    (¬ sameHour s t → periodKey s ≠ periodKey t) ∧
    (civilLe s t → periodKey s ≤ periodKey t) :=
  ⟨fun h => periodKey_congr h,
   fun h => periodKey_ne hs ht h,
   fun h => periodKey_mono hs ht h⟩

theorem periodKey_period_properties_witness :
    validCivil ⟨2026, 10, 12, 9, 15, 0⟩ ∧ validCivil ⟨2026, 10, 12, 10, 0, 30⟩ ∧
    ((sameHour ⟨2026, 10, 12, 9, 15, 0⟩ ⟨2026, 10, 12, 10, 0, 30⟩ →
        periodKey ⟨2026, 10, 12, 9, 15, 0⟩ = periodKey ⟨2026, 10, 12, 10, 0, 30⟩) ∧
      (¬ sameHour ⟨2026, 10, 12, 9, 15, 0⟩ ⟨2026, 10, 12, 10, 0, 30⟩ →
        periodKey ⟨2026, 10, 12, 9, 15, 0⟩ ≠ periodKey ⟨2026, 10, 12, 10, 0, 30⟩) ∧
      (civilLe ⟨2026, 10, 12, 9, 15, 0⟩ ⟨2026, 10, 12, 10, 0, 30⟩ →
        periodKey ⟨2026, 10, 12, 9, 15, 0⟩ ≤ periodKey ⟨2026, 10, 12, 10, 0, 30⟩)) :=
  ⟨by decide, by decide,
   periodKey_period_properties ⟨2026, 10, 12, 9, 15, 0⟩ ⟨2026, 10, 12, 10, 0, 30⟩
     (by decide) (by decide)⟩

/-! ## C5 — the submission builder -/

/-- C5: `make_submission` (miner.py:56–70) on an eval file holding `data`:
with `maxSize = k ≤ n` the written submission has exactly `k` records;
every written record is drawn from the source dataset and occurs no more
often than it occurs there; with `maxSize` unset the written submission is
a permutation of the full dataset (hence exactly `n` records).  The
records are the shuffle of the loaded data truncated by the cap
(`applySize sz (shuffle data)`), and the input is only read: every path
other than the written submission file is untouched.  `shuffle` is the
permutation `random.shuffle` applied (`hperm`). -/
theorem make_submission_shuffles_then_truncates {α : Type} [DecidableEq α]
    (shuffle : List α → List α) (fs : Fs α)
    (eval_data_dir eval_file submission_dir : String) (sz : Option Nat) (t : Civil)
    (data : List α)
    (hperm : (shuffle data).Perm data)
    (hread : fs (pathJoin eval_data_dir eval_file) = some data) :
    ∃ fs2 p,
      make_submission shuffle fs eval_data_dir eval_file submission_dir sz t =
        Except.ok (fs2, p, applySize sz (shuffle data)) ∧
      (∀ k, sz = some k → k ≤ data.length →
        (applySize sz (shuffle data)).length = k) ∧
      (∀ x ∈ applySize sz (shuffle data), x ∈ data) ∧
      (∀ x, (applySize sz (shuffle data)).count x ≤ data.count x) ∧
      (sz = none → (applySize sz (shuffle data)).Perm data) ∧
      (∀ q, q ≠ p → fs2 q = fs q) := by
  refine ⟨fun q =>
      if q = pathJoin submission_dir (submissionFileName (periodKey t) sz)
      then some (applySize sz (shuffle data)) else fs q,
    pathJoin submission_dir (submissionFileName (periodKey t) sz),
    ?_, ?_, ?_, ?_, ?_, ?_⟩
  · unfold make_submission
    rw [hread]
  · intro k hk hkle
    subst hk
    simp only [applySize, List.length_take, hperm.length_eq]
    omega
  · intro x hx
    apply hperm.subset
    cases sz with
    | some k =>
      simp only [applySize] at hx
      exact List.take_subset _ _ hx
    | none => exact hx
  · intro x
    have h1 : (applySize sz (shuffle data)).count x ≤ (shuffle data).count x := by
      cases sz with
      | some k => exact (List.take_sublist _ _).count_le x
      | none => exact le_refl _
    calc (applySize sz (shuffle data)).count x ≤ (shuffle data).count x := h1
      _ = data.count x := hperm.count_eq x
  · intro h
    subst h
    exact hperm
  · intro q hq
    simp only [if_neg hq]

theorem make_submission_shuffles_then_truncates_witness :
    ((fun l => l) [1, 2, 2, 3]).Perm [1, 2, 2, 3] ∧
    ((fun q => if q = pathJoin "d" "f" then some [1, 2, 2, 3] else none) :
        Fs Nat) (pathJoin "d" "f") = some [1, 2, 2, 3] ∧
    (∃ fs2 p,
      make_submission (fun l => l)
          (fun q => if q = pathJoin "d" "f" then some [1, 2, 2, 3] else none)
          "d" "f" "s" (some 2) ⟨2026, 10, 12, 14, 0, 0⟩ =
        Except.ok (fs2, p, applySize (some 2) ((fun l => l) [1, 2, 2, 3])) ∧
      (∀ k, (some 2 : Option Nat) = some k → k ≤ ([1, 2, 2, 3] : List Nat).length →
        (applySize (some 2) ((fun l => l) [1, 2, 2, 3])).length = k) ∧
      (∀ x ∈ applySize (some 2) ((fun l => l) [1, 2, 2, 3]), x ∈ ([1, 2, 2, 3] : List Nat)) ∧
      (∀ x, (applySize (some 2) ((fun l => l) [1, 2, 2, 3])).count x ≤
        ([1, 2, 2, 3] : List Nat).count x) ∧
      ((some 2 : Option Nat) = none →
        (applySize (some 2) ((fun l => l) [1, 2, 2, 3])).Perm [1, 2, 2, 3]) ∧
      (∀ q, q ≠ p →
        fs2 q = (fun q => if q = pathJoin "d" "f" then some [1, 2, 2, 3] else none) q)) :=
  ⟨List.Perm.refl _, by simp,
   make_submission_shuffles_then_truncates (fun l => l)
     (fun q => if q = pathJoin "d" "f" then some [1, 2, 2, 3] else none)
     "d" "f" "s" (some 2) ⟨2026, 10, 12, 14, 0, 0⟩ [1, 2, 2, 3]
     (List.Perm.refl _) (by simp)⟩

/-! ## C9 / C10 — forced refresh and swallowed fetch errors -/

theorem leadsWith_append (a b : List Char) : leadsWith a (a ++ b) = true := by
  induction a with
  | nil => rfl
  | cons x xs ih => simp [leadsWith, ih]

theorem underDir_pathJoin (d f : String) : underDir d (pathJoin d f) = true := by
  unfold underDir pathJoin
  rw [String.data_append]
  exact leadsWith_append _ _

theorem rmtree_under {α : Type} (d f : String) (fs : Fs α) :
    rmtree d fs (pathJoin d f) = none := by
  simp [rmtree, underDir_pathJoin]

/-- C9: dataset-fetch failure is non-fatal at the fetch step.  For every
fetch outcome (in particular every raised snapshot error),
`download_dataset` (miner.py:22–40) returns normally — the `try/except` at
miner.py:35–40 absorbs the exception — and the failure surfaces only
downstream: with a failing fetch, `load_dataset` (miner.py:44–54) errors
at its `os.rename` of the absent `data.jsonl`, not inside
`download_dataset`. -/
theorem download_dataset_nonfatal {α : Type} :
    (∀ (fetch : Fetch α) (dir : String) (force : Bool) (fs : Fs α),
      ∃ fs2, download_dataset fetch dir force fs = Except.ok fs2) ∧
    (∀ (msg dir ef : String) (fs : Fs α),
      load_dataset (Fetch.err msg) dir ef fs = Except.error "FileNotFoundError") := by
  constructor
  · intro fetch dir force fs
    cases fetch with
    | ok files => exact ⟨_, rfl⟩
    | err e => exact ⟨_, rfl⟩
  · intro msg dir ef fs
    have hd : download_dataset (Fetch.err msg) dir true fs =
        Except.ok (rmtree dir fs) := rfl
    unfold load_dataset
    rw [hd]
    dsimp only
    rw [rmtree_under]

/-- C10 (implicit): whenever a refresh runs it is forced
(`load_dataset` hardcodes `force=True`, miner.py:52), and the forced
branch of `download_dataset` first `shutil.rmtree`s the whole eval-data
directory (miner.py:28–30): any pre-existing file `g` under the directory
— an eval file of an earlier period included — that is not among the
snapshot's files and is not the rename target is gone after
`load_dataset`, whatever the initial filesystem contents were. -/
theorem load_dataset_force_deletes {α : Type} (files : List (String × FileData α))
    (dir ef : String) (fs : Fs α) (g : String)
    (hg : underDir dir g = true)
    (hsnap : files.find? (fun nf => pathJoin dir nf.1 == g) = none)
    (hne : g ≠ pathJoin dir ef) :
    match load_dataset (Fetch.ok files) dir ef fs with
    | Except.ok fs2 => fs2 g = none
    | Except.error _ => True := by
  have hd : download_dataset (Fetch.ok files) dir true fs =
      Except.ok (writeSnapshot dir files (rmtree dir fs)) := rfl
  unfold load_dataset
  rw [hd]
  dsimp only
  cases hsrc : writeSnapshot dir files (rmtree dir fs) (pathJoin dir "data.jsonl") with
  | none => trivial
  | some c =>
    dsimp only
    rw [if_neg hne]
    by_cases hsg : g = pathJoin dir "data.jsonl"
    · rw [if_pos hsg]
    · rw [if_neg hsg]
      unfold writeSnapshot
      rw [hsnap]
      simp [rmtree, hg]

theorem load_dataset_force_deletes_witness :
    underDir "data/eval_data" "data/eval_data/eval_data_2026101109.jsonl" = true ∧
    ([(("data.jsonl" : String), ([5] : FileData Nat))].find?
      (fun nf => pathJoin "data/eval_data" nf.1 ==
        "data/eval_data/eval_data_2026101109.jsonl") = none) ∧
    ("data/eval_data/eval_data_2026101109.jsonl" ≠
      pathJoin "data/eval_data" "eval_data_2026101210.jsonl") ∧
    (match load_dataset (Fetch.ok [("data.jsonl", [5])]) "data/eval_data"
        "eval_data_2026101210.jsonl"
        (fun q => if q = "data/eval_data/eval_data_2026101109.jsonl"
          then some [5, 6] else none) with
    | Except.ok fs2 => fs2 "data/eval_data/eval_data_2026101109.jsonl" = none
    | Except.error _ => True) :=
  ⟨by decide, by decide, by decide,
   load_dataset_force_deletes [("data.jsonl", [5])] "data/eval_data"
     "eval_data_2026101210.jsonl"
     (fun q => if q = "data/eval_data/eval_data_2026101109.jsonl"
       then some [5, 6] else none)
     "data/eval_data/eval_data_2026101109.jsonl"
     (by decide) (by decide) (by decide)⟩

/-! ## mainRun lemmas -/

/-- Is an event a submission-file write? -/
def isWriteEv : Ev → Bool
  | Ev.writeSub _ => true
  | _ => false

/-- Is an event a publish call? -/
def isPublishEv : Ev → Bool
  | Ev.publish _ _ => true
  | _ => false

theorem fetch_not_mem_commitRetrier (p : String) (errs : List String) :
    Ev.fetch ∉ commitRetrier p errs := by
  induction errs with
  | nil => simp [commitRetrier]
  | cons e rest ih => simp [commitRetrier, ih]

theorem strApp_cancel_left {a b c : String} (h : a ++ b = a ++ c) : b = c := by
  have hd := congrArg String.data h
  rw [String.data_append, String.data_append] at hd
  exact String.toList_inj.mp (List.append_cancel_left hd)

theorem strApp_cancel_right {a b c : String} (h : a ++ c = b ++ c) : a = b := by
  have hd := congrArg String.data h
  rw [String.data_append, String.data_append] at hd
  exact String.toList_inj.mp (List.append_cancel_right hd)

theorem evalFileName_inj {a b : String} (h : evalFileName a = evalFileName b) :
    a = b := by
  unfold evalFileName at h
  exact strApp_cancel_left (strApp_cancel_right h)

theorem submissionFileName_none_inj {a b : String}
    (h : submissionFileName a none = submissionFileName b none) : a = b := by
  unfold submissionFileName at h
  exact strApp_cancel_left (strApp_cancel_right h)

theorem pathJoin_cancel {d a b : String} (h : pathJoin d a = pathJoin d b) :
    a = b := by
  unfold pathJoin at h
  exact strApp_cancel_left h

/-! ## C6 — the refresh gate is idempotent within a period -/

/-- C6: for every run in which the eval file named with the current period
key (the `datetime.now()` reading at miner.py:136) already exists in the
eval-data directory, the run completes without ever invoking the
dataset-fetch collaborator — no `Ev.fetch` event, i.e. no
`load_dataset`/`download_dataset`/snapshot download — and the submission
is built from the existing eval file's records as-is. -/
theorem mainRun_existing_eval_skips_fetch {α : Type} (shuffle : List α → List α)
    (fetch : Fetch α) (commitId competitionId : String) (compress : ModelId → String)
    (errs : List String) (t136 t62 : Civil) (cfg : Config) (fs : Fs α) (data : List α)
    (hread : fs (pathJoin cfg.eval_data_dir (evalFileName (periodKey t136))) = some data) :
    ∃ r : RunResult α,
      mainRun shuffle fetch commitId competitionId compress errs t136 t62 cfg fs =
        Except.ok r ∧
      Ev.fetch ∉ r.trace ∧
      r.written = shuffle data := by
  have hgate : refreshGate fetch cfg.eval_data_dir (evalFileName (periodKey t136)) fs =
      Except.ok (fs, []) := by
    unfold refreshGate
    rw [hread]
    rfl
  have hsub : make_submission shuffle fs cfg.eval_data_dir
      (evalFileName (periodKey t136)) cfg.submission_dir none t62 =
      Except.ok (fun q =>
          if q = pathJoin cfg.submission_dir (submissionFileName (periodKey t62) none)
          then some (shuffle data) else fs q,
        pathJoin cfg.submission_dir (submissionFileName (periodKey t62) none),
        shuffle data) := by
    unfold make_submission
    rw [hread]
    rfl
  refine ⟨⟨fun q =>
      if q = pathJoin cfg.submission_dir (submissionFileName (periodKey t62) none)
      then some (shuffle data) else fs q,
    evalFileName (periodKey t136),
    pathJoin cfg.submission_dir (submissionFileName (periodKey t62) none),
    shuffle data,
    [] ++ (Ev.writeSub (pathJoin cfg.submission_dir (submissionFileName (periodKey t62) none)) ::
      Ev.publish cfg.hf_repo_id (pathJoin cfg.submission_dir (submissionFileName (periodKey t62) none)) ::
      commitRetrier (compress ⟨cfg.hf_repo_id, commitId, competitionId⟩) errs)⟩,
    ?_, ?_, rfl⟩
  · unfold mainRun
    rw [hgate]
    dsimp only
    rw [hsub]
  · intro hmem
    simp only [List.nil_append, List.mem_cons, reduceCtorEq, false_or] at hmem
    exact fetch_not_mem_commitRetrier _ _ hmem

theorem mainRun_existing_eval_skips_fetch_witness :
    ((fun q => if q = pathJoin "data/eval_data"
        (evalFileName (periodKey ⟨2026, 10, 12, 14, 0, 0⟩)) then some [7] else none) :
      Fs Nat) (pathJoin "data/eval_data" (evalFileName (periodKey ⟨2026, 10, 12, 14, 0, 0⟩))) =
      some [7] ∧
    (∃ r : RunResult Nat,
      mainRun (fun l => l) (Fetch.err "offline") "c0" "k0" (fun m => m.nspace) []
          ⟨2026, 10, 12, 14, 0, 0⟩ ⟨2026, 10, 12, 14, 5, 0⟩
          ⟨"data/eval_data", "data.jsonl", "data/submissions", none, "user/repo"⟩
          (fun q => if q = pathJoin "data/eval_data"
            (evalFileName (periodKey ⟨2026, 10, 12, 14, 0, 0⟩)) then some [7] else none) =
        Except.ok r ∧
      Ev.fetch ∉ r.trace ∧
      r.written = (fun l => l) [7]) :=
  ⟨by simp,
   mainRun_existing_eval_skips_fetch (fun l => l) (Fetch.err "offline") "c0" "k0"
     (fun m => m.nspace) [] ⟨2026, 10, 12, 14, 0, 0⟩ ⟨2026, 10, 12, 14, 5, 0⟩
     ⟨"data/eval_data", "data.jsonl", "data/submissions", none, "user/repo"⟩
     (fun q => if q = pathJoin "data/eval_data"
       (evalFileName (periodKey ⟨2026, 10, 12, 14, 0, 0⟩)) then some [7] else none)
     [7] (by simp)⟩

/-! ## C2 — end-to-end run with a configured submission size -/

/-- C2 (documents a code bug): in the end-to-end scenario —
`--submission-size 500` parsed into the config, a current-period eval
dataset of 10000 records, schedule unset, announce succeeding on its first
attempt (`errs = []`) — the run writes exactly one submission file and
makes exactly one publish call and one announce of the serialized
`ModelId{namespace, commit, competition_id}`, but the written submission
contains all 10000 records, not 500, and its filename carries no size
suffix: the call at miner.py:146 never forwards `config.submission_size`
to `make_submission`, so the configured cap is silently ignored. -/
theorem mainRun_drops_submission_size {α : Type} (shuffle : List α → List α)
    (fetch : Fetch α) (commitId competitionId : String) (compress : ModelId → String)
    (t136 t62 : Civil) (cfg : Config) (fs : Fs α) (data : List α)
    (hperm : (shuffle data).Perm data)
    (hread : fs (pathJoin cfg.eval_data_dir (evalFileName (periodKey t136))) = some data)
    (hn : data.length = 10000)
    (hsz : cfg.submission_size = some 500) :
    ∃ r : RunResult α,
      mainRun shuffle fetch commitId competitionId compress [] t136 t62 cfg fs =
        Except.ok r ∧
      r.trace.countP isWriteEv = 1 ∧
      r.trace.countP isPublishEv = 1 ∧
      r.trace.countP isAnnounceEv = 1 ∧
      Ev.announce (compress ⟨cfg.hf_repo_id, commitId, competitionId⟩) ∈ r.trace ∧
      r.written.length = 10000 ∧
      r.subPath =
        pathJoin cfg.submission_dir (("submission_" ++ periodKey t62) ++ ".jsonl") := by
  have hgate : refreshGate fetch cfg.eval_data_dir (evalFileName (periodKey t136)) fs =
      Except.ok (fs, []) := by
    unfold refreshGate
    rw [hread]
    rfl
  have hsub : make_submission shuffle fs cfg.eval_data_dir
      (evalFileName (periodKey t136)) cfg.submission_dir none t62 =
      Except.ok (fun q =>
          if q = pathJoin cfg.submission_dir (submissionFileName (periodKey t62) none)
          then some (shuffle data) else fs q,
        pathJoin cfg.submission_dir (submissionFileName (periodKey t62) none),
        shuffle data) := by
    unfold make_submission
    rw [hread]
    rfl
  refine ⟨⟨fun q =>
      if q = pathJoin cfg.submission_dir (submissionFileName (periodKey t62) none)
      then some (shuffle data) else fs q,
    evalFileName (periodKey t136),
    pathJoin cfg.submission_dir (submissionFileName (periodKey t62) none),
    shuffle data,
    [] ++ (Ev.writeSub (pathJoin cfg.submission_dir (submissionFileName (periodKey t62) none)) ::
      Ev.publish cfg.hf_repo_id (pathJoin cfg.submission_dir (submissionFileName (periodKey t62) none)) ::
      commitRetrier (compress ⟨cfg.hf_repo_id, commitId, competitionId⟩) [])⟩,
    ?_, ?_, ?_, ?_, ?_, ?_, rfl⟩
  · unfold mainRun
    rw [hgate]
    dsimp only
    rw [hsub]
  · simp [commitRetrier, List.countP_cons, isWriteEv]
  · simp [commitRetrier, List.countP_cons, isPublishEv]
  · simp [commitRetrier, List.countP_cons, isAnnounceEv]
  · simp [commitRetrier]
  · show (shuffle data).length = 10000
    rw [hperm.length_eq, hn]

theorem mainRun_drops_submission_size_witness :
    ((fun l => l) (List.range 10000)).Perm (List.range 10000) ∧
    ((fun q => if q = pathJoin "data/eval_data"
        (evalFileName (periodKey ⟨2026, 10, 12, 14, 0, 0⟩))
      then some (List.range 10000) else none) : Fs Nat)
      (pathJoin "data/eval_data" (evalFileName (periodKey ⟨2026, 10, 12, 14, 0, 0⟩))) =
      some (List.range 10000) ∧
    (List.range 10000).length = 10000 ∧
    (some 500 : Option Nat) = some 500 ∧
    (∃ r : RunResult Nat,
      mainRun (fun l => l) (Fetch.err "offline") "c0" "k0" (fun m => m.nspace) []
          ⟨2026, 10, 12, 14, 0, 0⟩ ⟨2026, 10, 12, 14, 30, 0⟩
          ⟨"data/eval_data", "data.jsonl", "data/submissions", some 500, "user/repo"⟩
          (fun q => if q = pathJoin "data/eval_data"
            (evalFileName (periodKey ⟨2026, 10, 12, 14, 0, 0⟩))
          then some (List.range 10000) else none) =
        Except.ok r ∧
      r.trace.countP isWriteEv = 1 ∧
      r.trace.countP isPublishEv = 1 ∧
      r.trace.countP isAnnounceEv = 1 ∧
      Ev.announce ((fun m => m.nspace) (⟨"user/repo", "c0", "k0"⟩ : ModelId)) ∈ r.trace ∧
      r.written.length = 10000 ∧
      r.subPath = pathJoin "data/submissions"
        (("submission_" ++ periodKey ⟨2026, 10, 12, 14, 30, 0⟩) ++ ".jsonl")) :=
  ⟨List.Perm.refl _, by simp, by simp, rfl,
   mainRun_drops_submission_size (fun l => l) (Fetch.err "offline") "c0" "k0"
     (fun m => m.nspace) ⟨2026, 10, 12, 14, 0, 0⟩ ⟨2026, 10, 12, 14, 30, 0⟩
     ⟨"data/eval_data", "data.jsonl", "data/submissions", some 500, "user/repo"⟩
     (fun q => if q = pathJoin "data/eval_data"
       (evalFileName (periodKey ⟨2026, 10, 12, 14, 0, 0⟩))
     then some (List.range 10000) else none)
     (List.range 10000) (List.Perm.refl _) (by simp) (by simp) rfl⟩

/-! ## C8 — period key shared by the eval and submission filenames -/

/-- C8 counterexample: the claim "within a single run the eval filename and
the submission filename embed one and the same period key" is false,
because `main` reads the clock twice — at miner.py:136 for the eval
filename and again at miner.py:62 for the submission filename.  In a
concrete run whose first reading is 2026-10-12 10:59:59 and whose second
is 2026-10-12 11:00:00 (an hour rollover during the run), no single key
`k` matches both filenames. -/
theorem mainRun_two_keys_counterexample :
    ∃ r : RunResult Nat,
      mainRun (fun l => l) (Fetch.err "offline") "c0" "k0" (fun m => m.nspace) []
          ⟨2026, 10, 12, 10, 59, 59⟩ ⟨2026, 10, 12, 11, 0, 0⟩
          ⟨"data/eval_data", "data.jsonl", "data/submissions", none, "user/repo"⟩
          (fun q => if q = pathJoin "data/eval_data"
            (evalFileName (periodKey ⟨2026, 10, 12, 10, 59, 59⟩))
          then some [0] else none) =
        Except.ok r ∧
      ¬ ∃ k, r.evalFile = evalFileName k ∧
          r.subPath = pathJoin "data/submissions" (submissionFileName k none) := by
  have hread : ((fun q => if q = pathJoin "data/eval_data"
        (evalFileName (periodKey ⟨2026, 10, 12, 10, 59, 59⟩))
      then some [0] else none) : Fs Nat)
      (pathJoin "data/eval_data" (evalFileName (periodKey ⟨2026, 10, 12, 10, 59, 59⟩))) =
      some [0] := by simp
  have hgate : refreshGate (Fetch.err "offline") "data/eval_data"
      (evalFileName (periodKey ⟨2026, 10, 12, 10, 59, 59⟩))
      ((fun q => if q = pathJoin "data/eval_data"
        (evalFileName (periodKey ⟨2026, 10, 12, 10, 59, 59⟩))
      then some [0] else none) : Fs Nat) =
      Except.ok ((fun q => if q = pathJoin "data/eval_data"
        (evalFileName (periodKey ⟨2026, 10, 12, 10, 59, 59⟩))
      then some [0] else none), []) := by
    unfold refreshGate
    rw [hread]
    rfl
  have hsub : make_submission (fun l => l)
      ((fun q => if q = pathJoin "data/eval_data"
        (evalFileName (periodKey ⟨2026, 10, 12, 10, 59, 59⟩))
      then some [0] else none) : Fs Nat)
      "data/eval_data" (evalFileName (periodKey ⟨2026, 10, 12, 10, 59, 59⟩))
      "data/submissions" none ⟨2026, 10, 12, 11, 0, 0⟩ =
      Except.ok (fun q =>
          if q = pathJoin "data/submissions"
            (submissionFileName (periodKey ⟨2026, 10, 12, 11, 0, 0⟩) none)
          then some [0]
          else (fun q => if q = pathJoin "data/eval_data"
            (evalFileName (periodKey ⟨2026, 10, 12, 10, 59, 59⟩))
          then some [0] else none) q,
        pathJoin "data/submissions"
          (submissionFileName (periodKey ⟨2026, 10, 12, 11, 0, 0⟩) none),
        [0]) := by
    unfold make_submission
    rw [hread]
    rfl
  refine ⟨⟨fun q =>
      if q = pathJoin "data/submissions"
        (submissionFileName (periodKey ⟨2026, 10, 12, 11, 0, 0⟩) none)
      then some [0]
      else (fun q => if q = pathJoin "data/eval_data"
        (evalFileName (periodKey ⟨2026, 10, 12, 10, 59, 59⟩))
      then some [0] else none) q,
    evalFileName (periodKey ⟨2026, 10, 12, 10, 59, 59⟩),
    pathJoin "data/submissions"
      (submissionFileName (periodKey ⟨2026, 10, 12, 11, 0, 0⟩) none),
    [0],
    [] ++ (Ev.writeSub (pathJoin "data/submissions"
        (submissionFileName (periodKey ⟨2026, 10, 12, 11, 0, 0⟩) none)) ::
      Ev.publish "user/repo" (pathJoin "data/submissions"
        (submissionFileName (periodKey ⟨2026, 10, 12, 11, 0, 0⟩) none)) ::
      commitRetrier ((fun m => m.nspace) (⟨"user/repo", "c0", "k0"⟩ : ModelId)) [])⟩,
    ?_, ?_⟩
  · unfold mainRun
    rw [hgate]
    dsimp only
    rw [hsub]
  · rintro ⟨k, h1, h2⟩
    have hk1 : periodKey ⟨2026, 10, 12, 10, 59, 59⟩ = k := evalFileName_inj h1
    have hk2 : periodKey ⟨2026, 10, 12, 11, 0, 0⟩ = k :=
      submissionFileName_none_inj (pathJoin_cancel h2)
    rw [← hk1] at hk2
    exact absurd hk2 (by decide)

/-- C8 amended: the two filenames of one run embed the same period key
whenever the two `datetime.now()` readings of that run (miner.py:136 for
the eval filename, miner.py:62 for the submission filename) fall in the
same calendar hour; the code computes the key twice instead of once, so
the original claim holds only under that same-hour condition (and fails
when the hour rolls over mid-run, see the counterexample). -/
theorem mainRun_same_hour_single_key {α : Type} (shuffle : List α → List α)
    (fetch : Fetch α) (commitId competitionId : String) (compress : ModelId → String)
    (errs : List String) (t136 t62 : Civil) (cfg : Config) (fs : Fs α) (data : List α)
    (hread : fs (pathJoin cfg.eval_data_dir (evalFileName (periodKey t136))) = some data)
    (hsame : sameHour t136 t62) :
    ∃ r : RunResult α,
      mainRun shuffle fetch commitId competitionId compress errs t136 t62 cfg fs =
        Except.ok r ∧
      ∃ k, r.evalFile = evalFileName k ∧
        r.subPath = pathJoin cfg.submission_dir (submissionFileName k none) := by
  have hgate : refreshGate fetch cfg.eval_data_dir (evalFileName (periodKey t136)) fs =
      Except.ok (fs, []) := by
    unfold refreshGate
    rw [hread]
    rfl
  have hsub : make_submission shuffle fs cfg.eval_data_dir
      (evalFileName (periodKey t136)) cfg.submission_dir none t62 =
      Except.ok (fun q =>
          if q = pathJoin cfg.submission_dir (submissionFileName (periodKey t62) none)
          then some (shuffle data) else fs q,
        pathJoin cfg.submission_dir (submissionFileName (periodKey t62) none),
        shuffle data) := by
    unfold make_submission
    rw [hread]
    rfl
  refine ⟨⟨fun q =>
      if q = pathJoin cfg.submission_dir (submissionFileName (periodKey t62) none)
      then some (shuffle data) else fs q,
    evalFileName (periodKey t136),
    pathJoin cfg.submission_dir (submissionFileName (periodKey t62) none),
    shuffle data,
    [] ++ (Ev.writeSub (pathJoin cfg.submission_dir (submissionFileName (periodKey t62) none)) ::
      Ev.publish cfg.hf_repo_id (pathJoin cfg.submission_dir (submissionFileName (periodKey t62) none)) ::
      commitRetrier (compress ⟨cfg.hf_repo_id, commitId, competitionId⟩) errs)⟩,
    ?_, ⟨periodKey t136, rfl, ?_⟩⟩
  · unfold mainRun
    rw [hgate]
    dsimp only
    rw [hsub]
  · rw [periodKey_congr hsame]

theorem mainRun_same_hour_single_key_witness :
    ((fun q => if q = pathJoin "data/eval_data"
        (evalFileName (periodKey ⟨2026, 10, 12, 14, 0, 0⟩)) then some [7] else none) :
      Fs Nat) (pathJoin "data/eval_data" (evalFileName (periodKey ⟨2026, 10, 12, 14, 0, 0⟩))) =
      some [7] ∧
    sameHour ⟨2026, 10, 12, 14, 0, 0⟩ ⟨2026, 10, 12, 14, 59, 59⟩ ∧
    (∃ r : RunResult Nat,
      mainRun (fun l => l) (Fetch.err "offline") "c0" "k0" (fun m => m.nspace) []
          ⟨2026, 10, 12, 14, 0, 0⟩ ⟨2026, 10, 12, 14, 59, 59⟩
          ⟨"data/eval_data", "data.jsonl", "data/submissions", none, "user/repo"⟩
          (fun q => if q = pathJoin "data/eval_data"
            (evalFileName (periodKey ⟨2026, 10, 12, 14, 0, 0⟩)) then some [7] else none) =
        Except.ok r ∧
      ∃ k, r.evalFile = evalFileName k ∧
        r.subPath = pathJoin "data/submissions" (submissionFileName k none)) :=
  ⟨by simp, by decide,
   mainRun_same_hour_single_key (fun l => l) (Fetch.err "offline") "c0" "k0"
     (fun m => m.nspace) [] ⟨2026, 10, 12, 14, 0, 0⟩ ⟨2026, 10, 12, 14, 59, 59⟩
     ⟨"data/eval_data", "data.jsonl", "data/submissions", none, "user/repo"⟩
     (fun q => if q = pathJoin "data/eval_data"
       (evalFileName (periodKey ⟨2026, 10, 12, 14, 0, 0⟩)) then some [7] else none)
     [7] (by simp) (by decide)⟩

end FlockMiner
